import Mathlib

/-
Verification of the heuristic locator-resolution engine of the pw-test
repository (src/tests/context-playwright.ts and src/backup_context.ts).

The TypeScript code is shallowly embedded: DOM input elements become a
structure of their inspected attributes, the in-page scoring function
`scoreFor` and the best-index selection of `findFieldLocator` become pure
Lean functions, the suggestion engine `suggestLocators` becomes an explicit
state-passing function over an abstract DOM state (all browser calls it
makes are queries), and the polling loops of `autoExpectVisible` and
`ensureDomReady` become clocked recursions over per-iteration durations.
Case-insensitive regular-expression tests such as /pass/i are embedded as
case-insensitive substring tests, which is exactly what those patterns
denote; the one non-literal pattern /online\s*id/i gets its own matcher.
Sequential `score += c` updates are rendered as a sum of the same
conditional addends, in source order.
-/

/-- Case-insensitive lowering of a character list. -/
def lowerChars (l : List Char) : List Char :=
  l.map Char.toLower

/-- `listStartsWith p l` holds when `p` is an initial segment of `l`. -/
def listStartsWith : List Char → List Char → Bool
  | [], _ => true
  | _ :: _, [] => false
  | p :: ps, c :: cs => p == c && listStartsWith ps cs

/-- `listContainsSub p l`: `p` occurs as a contiguous run inside `l`.
Embeds JavaScript `String.prototype.includes` / a literal regex test. -/
def listContainsSub (p : List Char) : List Char → Bool
  | [] => listStartsWith p []
  | c :: cs => listStartsWith p (c :: cs) || listContainsSub p cs

/-- `containsStr hay needle`: case-sensitive substring test, as in
JavaScript `hay.includes(needle)`. -/
def containsStr (hay needle : String) : Bool :=
  listContainsSub needle.data hay.data

/-- `containsCI hay needle`: case-insensitive substring test; embeds a
literal case-insensitive regex test such as `/pass/i.test(hay)`. -/
def containsCI (hay needle : String) : Bool :=
  listContainsSub (lowerChars needle.data) (lowerChars hay.data)

/-- Lowercase a string, as in JavaScript `toLowerCase` (ASCII view). -/
def strLower (s : String) : String :=
  ⟨lowerChars s.data⟩

/-- Matcher for the regex `/online\s*id/i` on an already-lowercased list:
the literal `online`, any run of whitespace, then `id`. -/
def matchesOnlineId : List Char → Bool
  | [] => false
  | c :: cs =>
    (listStartsWith "online".data (c :: cs) &&
      listStartsWith "id".data (((c :: cs).drop 6).dropWhile Char.isWhitespace))
    || matchesOnlineId cs

namespace Fields

/-- The semantic roles of `findFieldLocator` in context-playwright.ts. -/
inductive Semantic
  | username
  | password
  | code
  | email
  | text
deriving DecidableEq, Repr

/-- The attributes of one `<input>`/`<textarea>` element that the in-page
scorer of `findFieldLocator` inspects.  `visible` is the result of its
`isVisible` geometry check; `label` is the result of its `labelText`
association walk. -/
structure InputEl where
  visible : Bool
  type : String
  name : String
  id : String
  cls : String
  placeholder : String
  aria : String
  autocomplete : String
  label : String
deriving DecidableEq, Repr

/-- `tokenSets.username` of context-playwright.ts:
`[/user/i, /username/i, /login/i, /email/i, /online\s*id/i]`, as predicates
on an already-lowercased character list. -/
def usernameTokens : List (List Char → Bool) :=
  [fun s => listContainsSub "user".data s,
   fun s => listContainsSub "username".data s,
   fun s => listContainsSub "login".data s,
   fun s => listContainsSub "email".data s,
   fun s => matchesOnlineId s]

/-- `tokenSets.password`: `[/pass/i, /pwd/i, /password/i]`. -/
def passwordTokens : List (List Char → Bool) :=
  [fun s => listContainsSub "pass".data s,
   fun s => listContainsSub "pwd".data s,
   fun s => listContainsSub "password".data s]

/-- `tokenSets.code`: `[/code/i, /otp/i, /verification/i, /token/i]`. -/
def codeTokens : List (List Char → Bool) :=
  [fun s => listContainsSub "code".data s,
   fun s => listContainsSub "otp".data s,
   fun s => listContainsSub "verification".data s,
   fun s => listContainsSub "token".data s]

/-- `includesAny(text, regs)` of the in-page scorer. -/
def includesAny (text : String) (regs : List (List Char → Bool)) : Bool :=
  regs.any (fun r => r text.data)

/-- `scoreFor(el)` of `findFieldLocator` (context-playwright.ts lines
185-225), with the surrounding `semantic` and `hintText` parameters made
explicit.  Fields are lowercased exactly as in the source; the sequential
`score += c` updates are written as a sum of the same conditional addends
in source order. -/
def scoreFor (semantic : Semantic) (hintText : String) (el : InputEl) : ℤ :=
  let type := strLower el.type
  let name := strLower el.name
  let id := strLower el.id
  let cls := strLower el.cls
  let placeholder := strLower el.placeholder
  let aria := strLower el.aria
  let autocomplete := strLower el.autocomplete
  let lbl := strLower el.label
  let hint := strLower hintText
  let visPart : ℤ := if el.visible then 0 else -200
  let rolePart : ℤ :=
    match semantic with
    | .password =>
        (if type = "password" then 150 else -80)
        + (if includesAny (name ++ id ++ cls ++ placeholder ++ aria ++ lbl ++ hint) passwordTokens then 60 else 0)
        + (if containsStr autocomplete "current-password" || containsStr autocomplete "new-password" then 40 else 0)
        + (if includesAny (name ++ id) usernameTokens then -60 else 0)
    | .username | .email =>
        (if type = "password" then -150 else 0)
        + (if type = "email" then 40 else 0)
        + (if includesAny (name ++ id ++ cls ++ placeholder ++ aria ++ lbl ++ hint) usernameTokens then 70 else 0)
        + (if containsStr autocomplete "username" || containsStr autocomplete "email" then 50 else 0)
        + (if includesAny (name ++ id ++ placeholder ++ aria ++ lbl) passwordTokens then -60 else 0)
    | .code =>
        (if type = "password" then -40 else 0)
        + (if includesAny (name ++ id ++ cls ++ placeholder ++ aria ++ lbl ++ hint) codeTokens then 80 else 0)
        + (if containsStr autocomplete "one-time-code" then 60 else 0)
    | .text =>
        (if type = "text" || type = "search" || type = "tel" then 10 else 0)
  let generalPart : ℤ :=
    (if placeholder ≠ "" then 5 else 0)
    + (if aria ≠ "" then 5 else 0)
    + (if lbl ≠ "" then 5 else 0)
  visPart + rolePart + generalPart

/-- The `best` accumulation loop of `findFieldLocator` (lines 227-231):
`best = {idx:-1, score:-Infinity}` is the `none` accumulator, and each
element replaces it only on a strictly greater score. -/
def bestLoop (f : InputEl → ℤ) : List InputEl → ℕ → Option (ℕ × ℤ) → Option (ℕ × ℤ)
  | [], _, best => best
  | e :: rest, i, best =>
      let s := f e
      let best' :=
        match best with
        | none => some (i, s)
        | some (bi, bs) => if s > bs then some (i, s) else some (bi, bs)
      bestLoop f rest (i + 1) best'

/-- `findFieldLocator`'s in-page selection (lines 227-233): the index of
the best-scoring input, or `none` (`-1`) unless the best score is ≥ 25. -/
def findFieldLocator (semantic : Semantic) (hintText : String) (elements : List InputEl) : Option ℕ :=
  match bestLoop (scoreFor semantic hintText) elements 0 none with
  | some (i, s) => if 25 ≤ s then some i else none
  | none => none

/-- `autoFill`'s semantic-role inference from the hint (lines 253-267):
`/password|pass|pwd/i`, `/username|user|login|email|online\s*id/i`,
`/code|otp|verification/i`, checked in the source's ternary order
(password, then code, then username, else text). -/
def autoFillSemantic (hintStr : String) : Semantic :=
  let isPassword := containsCI hintStr "password" || containsCI hintStr "pass" || containsCI hintStr "pwd"
  let isUsername := containsCI hintStr "username" || containsCI hintStr "user" || containsCI hintStr "login"
      || containsCI hintStr "email" || matchesOnlineId (lowerChars hintStr.data)
  let isCode := containsCI hintStr "code" || containsCI hintStr "otp" || containsCI hintStr "verification"
  if isPassword then .password
  else if isCode then .code
  else if isUsername then .username
  else .text

/-- The element index `autoFill` fills through the semantic resolver
(lines 259-279): role inferred from the hint, then `findFieldLocator`. -/
def autoFillSelect (hintStr : String) (elements : List InputEl) : Option ℕ :=
  findFieldLocator (autoFillSemantic hintStr) hintStr elements

end Fields

namespace Suggest

/-- The four query APIs ranked by `suggestLocators`. -/
inductive ApiKind
  | getByRole
  | getByLabel
  | getByText
  | locator
deriving DecidableEq, Repr

/-- One entry of the fixed `candidates` array of `suggestLocators`
(context-playwright.ts lines 588-597). -/
structure Candidate where
  api : ApiKind
  selector : String
  reasons : List String
deriving DecidableEq, Repr

/-- `JSON.stringify` escaping of one character (quote and backslash;
the selector strings the code builds contain no control characters). -/
def jsonEscapeChar (c : Char) : List Char :=
  if c = '"' then ['\\', '"'] else if c = '\\' then ['\\', '\\'] else [c]

/-- The body of `JSON.stringify(hint)` without the surrounding quotes,
i.e. `JSON.stringify(hint).slice(1, -1)`. -/
def jsonEscape (s : String) : String :=
  ⟨s.data.flatMap jsonEscapeChar⟩

/-- `JSON.stringify(hint)`. -/
def jsonQuote (s : String) : String :=
  "\"" ++ jsonEscape s ++ "\""

/-- A single-quote character, used in the displayed selector text. -/
def sq : String := "\x27"

/-- An opening brace character, used in the displayed selector text. -/
def lbr : String := "\x7b"

/-- A closing brace character, used in the displayed selector text. -/
def rbr : String := "\x7d"

/-- The `candidates` array of `suggestLocators`, in source order. -/
def candidatesFor (hint : String) : List Candidate :=
  [⟨.getByRole, "button[name=" ++ jsonQuote hint ++ "]", ["role button name match"]⟩,
   ⟨.getByRole, "link[name=" ++ jsonQuote hint ++ "]", ["role link name match"]⟩,
   ⟨.getByLabel, jsonQuote hint, ["associated label match"]⟩,
   ⟨.getByText, jsonQuote hint, ["text node match"]⟩,
   ⟨.locator, "[data-testid*=" ++ jsonEscape hint ++ " i]", ["data-testid contains"]⟩,
   ⟨.locator, "button:has-text(" ++ jsonQuote hint ++ ")", ["button has-text"]⟩,
   ⟨.locator, "[aria-label*=" ++ jsonEscape hint ++ " i]", ["aria-label contains"]⟩,
   ⟨.locator, "a:has-text(" ++ jsonQuote hint ++ ")", ["link has-text"]⟩]

/-- The i-th candidate. -/
def candAt (hint : String) (i : Fin 8) : Candidate :=
  (candidatesFor hint).get ⟨i.1, by simpa [candidatesFor] using i.2⟩

/-- A ranked locator suggestion, as in the `LocatorSuggestion` interface. -/
structure Suggestion where
  selector : String
  api : ApiKind
  confidence : ℤ
  unique : Bool
  visible : Bool
  reasons : List String
  frameUrl : Option String
deriving DecidableEq, Repr

/-- The regex test `/aria|role/i.test(r)`. -/
def mentionsAriaOrRole (r : String) : Bool :=
  listContainsSub "aria".data (lowerChars r.data) || listContainsSub "role".data (lowerChars r.data)

/-- The regex test `/data-testid/i.test(r)`. -/
def mentionsTestId (r : String) : Bool :=
  listContainsSub "data-testid".data (lowerChars r.data)

/-- The inner `scoreFor(candidate)` of `suggestLocators` (lines 555-572):
API-kind base score, uniqueness and visibility deltas, reason-provenance
bonuses, clamped to [0, 100]. -/
def scoreFor (api : ApiKind) (uniq visible : Bool) (reasons : List String) : ℤ :=
  let s : ℤ :=
    (match api with
     | .getByRole => 35
     | .getByLabel => 30
     | .getByText => 20
     | .locator => 10)
    + (if uniq then 20 else -10)
    + (if visible then 15 else -15)
    + (if reasons.any mentionsAriaOrRole then 10 else 0)
    + (if reasons.any mentionsTestId then 10 else 0)
  max 0 (min 100 s)

/-- The API name used when composing `${c.api}(${JSON.stringify(hint)})`. -/
def apiName : ApiKind → String
  | .getByRole => "getByRole"
  | .getByLabel => "getByLabel"
  | .getByText => "getByText"
  | .locator => "locator"

/-- The `selector` text stored on the suggestion item (lines 618-621). -/
def displaySelector (hint : String) (c : Candidate) : String :=
  match c.api with
  | .locator => c.selector
  | .getByRole =>
      if listStartsWith "button".data c.selector.data then
        "getByRole(" ++ sq ++ "button" ++ sq ++ ", " ++ lbr ++ " name: " ++ jsonQuote hint ++ " " ++ rbr ++ ")"
      else
        "getByRole(" ++ sq ++ "link" ++ sq ++ ", " ++ lbr ++ " name: " ++ jsonQuote hint ++ " " ++ rbr ++ ")"
  | _ => apiName c.api ++ "(" ++ jsonQuote hint ++ ")"

/-- The suggestion item built for a candidate whose query matched
`count` elements (lines 617-629): `unique` is `count === 1`, and
`confidence` is `scoreFor` of the item itself. -/
def mkItem (hint : String) (c : Candidate) (frameUrl : String) (count : ℕ) (vis : Bool) : Suggestion :=
  { selector := displaySelector hint c
    api := c.api
    confidence := scoreFor c.api (count == 1) vis c.reasons
    unique := count == 1
    visible := vis
    reasons := c.reasons
    frameUrl := some frameUrl }

/-- The observable DOM state of one frame, as seen through the queries
`suggestLocators` issues: for each of the 8 candidate queries, the result
of `loc.count()` (`none` when the query raised, which the code catches and
skips) and of `first().isVisible()` (its own failures already defaulted to
`false` by the code's catches). -/
structure FrameDom where
  url : String
  countRes : Fin 8 → Option ℕ
  visRes : Fin 8 → Bool

/-- The observable DOM state of the page: the page itself followed by its
frames, in the order `frameLocators` is built (lines 574-580); frames whose
`url()` raised are excluded there and so are absent here. -/
structure DomState where
  frames : List FrameDom

/-- `page.url()` / `f.url()`: a query; reads the state, leaves it intact. -/
def urlRead (f : FrameDom) (st : DomState) : String × DomState := (f.url, st)

/-- `loc.count()`: a query; reads the state, leaves it intact. -/
def countRead (f : FrameDom) (i : Fin 8) (st : DomState) : Option ℕ × DomState := (f.countRes i, st)

/-- `first().isVisible()`: a query; reads the state, leaves it intact. -/
def isVisibleRead (f : FrameDom) (i : Fin 8) (st : DomState) : Bool × DomState := (f.visRes i, st)

/-- `page.frames()` enumeration: a query; reads the state, leaves it intact. -/
def framesRead (st : DomState) : List FrameDom × DomState := (st.frames, st)

/-- The `for (const c of candidates)` loop of `suggestLocators`
(lines 599-633), with the browser state threaded through each query:
a candidate contributes a suggestion exactly when its `count()` succeeded
with `0 < count ≤ 3`. -/
def candLoop (hint : String) (f : FrameDom) (u : String) :
    List (Fin 8) → DomState → List Suggestion × DomState
  | [], st => ([], st)
  | i :: rest, st =>
      match countRead f i st with
      | (none, st1) => candLoop hint f u rest st1
      | (some n, st1) =>
          if 0 < n ∧ n ≤ 3 then
            let vs := isVisibleRead f i st1
            let tail := candLoop hint f u rest vs.2
            (mkItem hint (candAt hint i) u n vs.1 :: tail.1, tail.2)
          else candLoop hint f u rest st1

/-- The `for (const ctx of frameLocators)` loop (lines 585-634). -/
def frameLoop (hint : String) : List FrameDom → DomState → List Suggestion × DomState
  | [], st => ([], st)
  | f :: rest, st =>
      let us := urlRead f st
      let ss := candLoop hint f us.1 (List.finRange 8) us.2
      let ts := frameLoop hint rest ss.2
      (ss.1 ++ ts.1, ts.2)

/-- The deduplication key `${s.selector}@@${s.frameUrl || ''}` (line 640). -/
def dedupKey (s : Suggestion) : String :=
  s.selector ++ "@@" ++ s.frameUrl.getD ""

/-- The `seen`-set filter (lines 637-644): keep the first occurrence of
each key. -/
def dedupLoop : List Suggestion → List String → List Suggestion
  | [], _ => []
  | s :: rest, seen =>
      if dedupKey s ∈ seen then dedupLoop rest seen
      else s :: dedupLoop rest (dedupKey s :: seen)

/-- Stable insertion for descending confidence order. -/
def insertDesc (x : Suggestion) : List Suggestion → List Suggestion
  | [] => [x]
  | y :: ys => if x.confidence ≥ y.confidence then x :: y :: ys else y :: insertDesc x ys

/-- The stable `sort((a, b) => b.confidence - a.confidence)` (line 645). -/
def sortDesc : List Suggestion → List Suggestion
  | [] => []
  | x :: xs => insertDesc x (sortDesc xs)

/-- `suggestLocators(page, hint)` (lines 554-648) as a state transformer:
enumerate contexts, collect guarded candidate suggestions, deduplicate,
and rank.  Every browser interaction it performs is one of the query
reads above. -/
def suggestLocatorsS (hint : String) (st : DomState) : List Suggestion × DomState :=
  let fs := framesRead st
  let raw := frameLoop hint fs.1 fs.2
  (sortDesc (dedupLoop raw.1 []), raw.2)

/-- Pure value of the candidate loop (used to state its evaluation). -/
def candList (hint : String) (f : FrameDom) (u : String) : List (Fin 8) → List Suggestion
  | [] => []
  | i :: rest =>
      match f.countRes i with
      | none => candList hint f u rest
      | some n =>
          if 0 < n ∧ n ≤ 3 then mkItem hint (candAt hint i) u n (f.visRes i) :: candList hint f u rest
          else candList hint f u rest

/-- Pure value of the frame loop. -/
def frameList (hint : String) : List FrameDom → List Suggestion
  | [] => []
  | f :: rest => candList hint f f.url (List.finRange 8) ++ frameList hint rest

end Suggest

namespace AutoVisible

/-- The polling loop of `autoExpectVisible` (context-playwright.ts lines
361-382) for a hint that never becomes visible, as a clock: `t` is the
elapsed time when the `while (Date.now() - start < timeoutMs)` condition
is checked, `o i` is the duration of iteration i's non-sleep work
(`ensureDomReady`, `resolveLocator`, and the 2s `toBeVisible` check when a
candidate was found), and 500 is the fixed `waitForTimeout(500)` poll
interval.  The returned value is the elapsed time at which the loop exits
and the descriptive error is thrown. -/
def runLoop (o : ℕ → ℕ) (timeoutMs : ℕ) (i t : ℕ) : ℕ :=
  if t < timeoutMs then runLoop o timeoutMs (i + 1) (t + o i + 500) else t
  termination_by timeoutMs - t
  decreasing_by simp_wf; omega

/-- The elapsed time at which `autoExpectVisible` throws, for a hint that
never resolves to a visible element. -/
def throwTime (o : ℕ → ℕ) (timeoutMs : ℕ) : ℕ :=
  runLoop o timeoutMs 0 0

end AutoVisible

namespace Ready

/-- The environment `ensureDomReady` (context-playwright.ts lines 36-62)
runs against: when (if ever) each load state would be reached, and the
result and duration of each `page.evaluate` spinner probe
(`.error` models the probe raising, which the code catches). -/
structure ReadyEnv where
  domLoadAt : Option ℕ
  idleLoadAt : Option ℕ
  spinEval : ℕ → Except Unit Bool
  spinDur : ℕ → ℕ

/-- `page.waitForLoadState(_, { timeout: 15000 })`: waits until the state
is reached or 15s elapse, returning the wait's duration and whether it
raised a timeout error. -/
def loadStateWait (completeAt : Option ℕ) : ℕ × Except Unit Unit :=
  match completeAt with
  | some d => if d ≤ 15000 then (d, Except.ok ()) else (15000, Except.error ())
  | none => (15000, Except.error ())

/-- `try { ... } catch {}`: the error is swallowed. -/
def swallowErr (r : Except Unit Unit) : Except Unit Unit :=
  match r with
  | .ok _ => Except.ok ()
  | .error _ => Except.ok ()

/-- The spinner-polling loop (lines 42-61): while less than 15s have
elapsed, evaluate the spinner probe; a `false` result or an exception
breaks out (fail-open), a `true` result sleeps 300ms and repeats.
Returns the number of `page.evaluate` probes issued. -/
def spinCalls (ev : ℕ → Except Unit Bool) (dur : ℕ → ℕ) (i t : ℕ) : ℕ :=
  if t < 15000 then
    match ev i with
    | .ok true => spinCalls ev dur (i + 1) (t + dur i + 300)
    | .ok false => i + 1
    | .error _ => i + 1
  else i
  termination_by 15000 - t
  decreasing_by simp_wf; omega

/-- `ensureDomReady(page)` (lines 36-62): both load-state waits have their
errors swallowed, the spinner poll result is discarded, and the function
returns normally. -/
def ensureDomReady (env : ReadyEnv) : Except Unit Unit := do
  let _ ← swallowErr (loadStateWait env.domLoadAt).2
  let _ ← swallowErr (loadStateWait env.idleLoadAt).2
  let _ := spinCalls env.spinEval env.spinDur 0 0
  return ()

end Ready

namespace Harness

/-- Playwright test statuses relevant to the page fixtures. -/
inductive TStatus
  | passed
  | failed
  | timedOut
  | skipped
  | interrupted
deriving DecidableEq, Repr

/-- The externally observable actions of a page fixture run. -/
inductive Effect
  | logFailureDiagnostics
  | runPageAnalysis
  | logConsoleHelpers
  | saveDomSnapshotTimestamped
  | saveScreenshotTimestamped
  | closePage
  | closeContext
  | closeBrowser
deriving DecidableEq, Repr

/-- How a fixture run ends. -/
inductive Terminal
  | returnsNormally
  | suspendsForever
  | propagatesError
deriving DecidableEq, Repr

/-- One run of a page fixture: its effects in order and how it ends. -/
structure HarnessRun where
  effects : List Effect
  terminal : Terminal
deriving DecidableEq, Repr

/-- The `page` fixture of src/backup_context.ts (lines 242-290): when
`use(page)` rejects, it logs diagnostics, saves a timestamped DOM snapshot
and a timestamped full-page screenshot, logs the console helpers, and then
awaits a promise that never resolves (so the `finally` block is never
reached); when `use(page)` resolves, the `finally` block closes page,
context and browser only if `testInfo.status` is `passed`. -/
def backupPageFixture (useFails : Bool) (status : TStatus) : HarnessRun :=
  if useFails then
    { effects := [.logFailureDiagnostics, .saveDomSnapshotTimestamped,
                  .saveScreenshotTimestamped, .logConsoleHelpers],
      terminal := .suspendsForever }
  else
    { effects := if status = .passed then [.closePage, .closeContext, .closeBrowser] else [],
      terminal := .returnsNormally }

/-- The `page` fixture of src/tests/context-playwright.ts (lines 841-933),
the one the exported `test` uses: when `use(page)` rejects, it logs
diagnostics, runs the in-page analysis, logs the console helpers, and then
rethrows the error (`throw error`); it saves no files, has no `finally`,
and closes nothing itself. -/
def enhancedPageFixture (useFails : Bool) : HarnessRun :=
  if useFails then
    { effects := [.logFailureDiagnostics, .runPageAnalysis, .logConsoleHelpers],
      terminal := .propagatesError }
  else
    { effects := [], terminal := .returnsNormally }

end Harness

namespace Click

/-- The environment one `autoClick` call runs against for a given hint:
whether `resolveLocator` finds an element, and whether the timed click and
the raw `dispatchEvent('click')` succeed on it. -/
structure BackupClickEnv where
  resolves : Bool
  clickOk : Bool
  dispatchOk : Bool
  dispatchErrMsg : String
deriving DecidableEq, Repr

/-- The interactions `autoClick` attempts, in order. -/
inductive ClickAction
  | timedClick
  | dispatchClickEvent
deriving DecidableEq, Repr

/-- The outcome of an `autoClick` call. -/
inductive ClickOutcome
  | success
  | failure (msg : String)
deriving DecidableEq, Repr

/-- The resolver-miss error message of src/backup_context.ts line 110. -/
def backupMissMsg (hint : String) : String :=
  "Auto-fix could not locate clickable element for " ++ hint ++ ". Please share selector details or add a data-testid."

/-- `autoClick` of src/backup_context.ts (lines 102-113): resolve; on a
hit, a timed click whose failure is caught by falling back to
`dispatchEvent` (whose own failure propagates); on a miss, a descriptive
error naming the hint. -/
def autoClick (hint : String) (env : BackupClickEnv) : ClickOutcome × List ClickAction :=
  if env.resolves then
    if env.clickOk then (.success, [.timedClick])
    else if env.dispatchOk then (.success, [.timedClick, .dispatchClickEvent])
    else (.failure env.dispatchErrMsg, [.timedClick, .dispatchClickEvent])
  else (.failure (backupMissMsg hint), [])

/-- The resolver-miss error message of context-playwright.ts line 357. -/
def mainMissMsg (hint : String) : String :=
  "Auto-click could not find element for " ++ hint

/-- `autoClick` of src/tests/context-playwright.ts (lines 329-358): each
strategy is tried in turn; a strategy whose `count()` is positive gets a
timed click, and a failing click is caught by moving on to the NEXT
strategy; when every strategy is exhausted, a descriptive error naming the
hint is thrown.  Each list entry is one strategy: whether it matched an
element, and whether its timed click succeeded. -/
def autoClickMain (hint : String) : List (Bool × Bool) → ClickOutcome × List ClickAction
  | [] => (.failure (mainMissMsg hint), [])
  | (found, ok) :: rest =>
      if found then
        if ok then (.success, [.timedClick])
        else
          let r := autoClickMain hint rest
          (r.1, .timedClick :: r.2)
      else autoClickMain hint rest

end Click

/-- The document of the C1 counterexample: a visible `type=text` input
with `autocomplete="current-password"` and nonempty placeholder, ARIA
label and label text. -/
def cexTextEl : Fields.InputEl :=
  ⟨true, "text", "", "", "", "x", "y", "current-password", "z"⟩

/-- The document of the C1 counterexample: an invisible `type=password`
input with nonempty placeholder, ARIA label and label text, whose
password-role score is exactly the threshold 25. -/
def cexPasswordEl : Fields.InputEl :=
  ⟨false, "password", "", "", "", "x", "y", "", "z"⟩

/-- A plain visible text input with no signals (C1 witness document). -/
def witPlainEl : Fields.InputEl :=
  ⟨true, "text", "", "", "", "", "", "", ""⟩

/-- A plain visible password input (C1 witness document). -/
def witVisPasswordEl : Fields.InputEl :=
  ⟨true, "password", "", "", "", "", "", "", ""⟩

/-- A plain visible text input with no signals (C2 witness document). -/
def c2PlainEl : Fields.InputEl :=
  ⟨true, "text", "", "", "", "", "", "", ""⟩

/-- A plain visible password input with no other signals (C3 witness). -/
def c3PasswordEl : Fields.InputEl :=
  ⟨true, "password", "", "", "", "", "", "", ""⟩

/-- One frame whose role-button query matches exactly one visible element
(C4 witness document). -/
def c4Frame : Suggest.FrameDom :=
  ⟨"https://app.example/login", fun i => if i.1 = 0 then some 1 else none, fun _ => true⟩

/-- C4 witness document. -/
def c4Dom : Suggest.DomState := ⟨[c4Frame]⟩

/-- One frame whose data-testid query matches two hidden elements
(C10 witness document). -/
def c10Frame : Suggest.FrameDom :=
  ⟨"https://app.example/portal", fun i => if i.1 = 4 then some 2 else none, fun _ => false⟩

/-- C10 witness document. -/
def c10Dom : Suggest.DomState := ⟨[c10Frame]⟩

namespace Fields

theorem listStartsWith_of_append (p q l : List Char)
    (h : listStartsWith (p ++ q) l = true) : listStartsWith p l = true := by
  induction p generalizing l with
  | nil => rfl
  | cons a ps ih =>
    cases l with
    | nil => simp [listStartsWith] at h
    | cons c cs =>
      simp only [List.cons_append, listStartsWith, Bool.and_eq_true] at h ⊢
      exact ⟨h.1, ih cs h.2⟩

theorem listStartsWith_extend (p l l' : List Char)
    (h : listStartsWith p l = true) : listStartsWith p (l ++ l') = true := by
  induction p generalizing l with
  | nil => rfl
  | cons a ps ih =>
    cases l with
    | nil => simp [listStartsWith] at h
    | cons c cs =>
      simp only [listStartsWith, Bool.and_eq_true] at h
      simp only [List.cons_append, listStartsWith, Bool.and_eq_true]
      exact ⟨h.1, ih cs h.2⟩

theorem listContainsSub_of_append_pattern (p q l : List Char)
    (h : listContainsSub (p ++ q) l = true) : listContainsSub p l = true := by
  induction l with
  | nil =>
    simp only [listContainsSub] at h ⊢
    exact listStartsWith_of_append p q [] h
  | cons c cs ih =>
    simp only [listContainsSub, Bool.or_eq_true] at h ⊢
    rcases h with h | h
    · exact Or.inl (listStartsWith_of_append p q (c :: cs) h)
    · exact Or.inr (ih h)

theorem listContainsSub_append_right (p l l' : List Char)
    (h : listContainsSub p l = true) : listContainsSub p (l' ++ l) = true := by
  induction l' with
  | nil => simpa using h
  | cons c cs ih =>
    simp only [List.cons_append, listContainsSub, Bool.or_eq_true]
    exact Or.inr ih

/-- If the hint already matches `/password/i`, the concatenation
`name+id+class+placeholder+aria+label+hint` scanned by the scorer
matches the password token set (via its `/pass/i` member). -/
theorem includesAny_password_of_hint (a hintStr : String)
    (h : containsCI hintStr "password" = true) :
    includesAny (a ++ strLower hintStr) passwordTokens = true := by
  have hpass : listContainsSub "pass".data (lowerChars hintStr.data) = true := by
    have h' : listContainsSub ("pass".data ++ "word".data) (lowerChars hintStr.data) = true := by
      simpa [containsCI, lowerChars] using h
    exact listContainsSub_of_append_pattern _ _ _ h'
  have hcat : listContainsSub "pass".data (a.data ++ lowerChars hintStr.data) = true :=
    listContainsSub_append_right _ _ _ hpass
  simp only [includesAny, passwordTokens, List.any_cons, Bool.or_eq_true]
  left
  simpa [strLower, String.data_append] using hcat

theorem bestLoop_acc_le (f : InputEl → ℤ) :
    ∀ (l : List InputEl) (i b : ℕ) (bs : ℤ) (j : ℕ) (s : ℤ),
      bestLoop f l i (some (b, bs)) = some (j, s) → bs ≤ s := by
  intro l
  induction l with
  | nil =>
    intro i b bs j s h
    simp only [bestLoop, Option.some.injEq, Prod.mk.injEq] at h
    omega
  | cons e rest ih =>
    intro i b bs j s h
    simp only [bestLoop] at h
    split at h
    · exact le_of_lt (lt_of_lt_of_le (by assumption) (ih _ _ _ _ _ h))
    · exact ih _ _ _ _ _ h

theorem bestLoop_ub (f : InputEl → ℤ) :
    ∀ (l : List InputEl) (i : ℕ) (acc : Option (ℕ × ℤ)) (j : ℕ) (s : ℤ),
      bestLoop f l i acc = some (j, s) → ∀ e ∈ l, f e ≤ s := by
  intro l
  induction l with
  | nil => intro i acc j s _ e he; exact absurd he (List.not_mem_nil e)
  | cons e rest ih =>
    intro i acc j s h e' he'
    rcases List.mem_cons.mp he' with rfl | hmem
    · cases acc with
      | none =>
        simp only [bestLoop] at h
        exact bestLoop_acc_le f rest _ _ _ _ _ h
      | some p =>
        obtain ⟨b, bs⟩ := p
        simp only [bestLoop] at h
        split at h
        · exact bestLoop_acc_le f rest _ _ _ _ _ h
        · exact le_trans (not_lt.mp (by assumption)) (bestLoop_acc_le f rest _ _ _ _ _ h)
    · cases acc with
      | none => exact ih _ _ _ _ h e' hmem
      | some p =>
        obtain ⟨b, bs⟩ := p
        simp only [bestLoop] at h
        split at h
        · exact ih _ _ _ _ h e' hmem
        · exact ih _ _ _ _ h e' hmem

theorem bestLoop_attains (f : InputEl → ℤ) :
    ∀ (l : List InputEl) (i : ℕ) (acc : Option (ℕ × ℤ)) (j : ℕ) (s : ℤ),
      bestLoop f l i acc = some (j, s) →
      acc = some (j, s) ∨ ∃ k, ∃ hk : k < l.length, j = i + k ∧ s = f (l.get ⟨k, hk⟩) := by
  intro l
  induction l with
  | nil => intro i acc j s h; exact Or.inl h
  | cons e rest ih =>
    intro i acc j s h
    cases acc with
    | none =>
      simp only [bestLoop] at h
      rcases ih _ _ _ _ h with heq | ⟨k, hk, hj, hs⟩
      · obtain ⟨h1, h2⟩ : i = j ∧ f e = s := by simpa using heq
        exact Or.inr ⟨0, by simp, by omega, by simp [List.get, ← h2]⟩
      · exact Or.inr ⟨k + 1, by simpa using Nat.succ_lt_succ hk, by omega, by simpa using hs⟩
    | some p =>
      obtain ⟨b, bs⟩ := p
      simp only [bestLoop] at h
      split at h
      · rcases ih _ _ _ _ h with heq | ⟨k, hk, hj, hs⟩
        · obtain ⟨h1, h2⟩ : i = j ∧ f e = s := by simpa using heq
          exact Or.inr ⟨0, by simp, by omega, by simp [List.get, ← h2]⟩
        · exact Or.inr ⟨k + 1, by simpa using Nat.succ_lt_succ hk, by omega, by simpa using hs⟩
      · rcases ih _ _ _ _ h with heq | ⟨k, hk, hj, hs⟩
        · exact Or.inl heq
        · exact Or.inr ⟨k + 1, by simpa using Nat.succ_lt_succ hk, by omega, by simpa using hs⟩

/-- A visible `type=password` element scores at least 150 under the
password role whenever the hint matches `/password/i`. -/
theorem scoreFor_password_of_visible_password (hintStr : String) (el : InputEl)
    (hHint : containsCI hintStr "password" = true)
    (hty : strLower el.type = "password") (hvis : el.visible = true) :
    150 ≤ scoreFor .password hintStr el := by
  simp only [scoreFor, hty, hvis]
  rw [includesAny_password_of_hint _ _ hHint]
  norm_num
  split_ifs <;> omega

/-- A `type=text` element scores at most 35 under the password role. -/
theorem scoreFor_password_of_text (hintStr : String) (el : InputEl)
    (hty : strLower el.type = "text") :
    scoreFor .password hintStr el ≤ 35 := by
  simp only [scoreFor, hty]
  have h1 : ¬ ("text" : String) = "password" := by decide
  rw [if_neg h1]
  split_ifs <;> omega

end Fields

namespace Suggest

theorem candLoop_eq (hint : String) (f : FrameDom) (u : String) :
    ∀ (l : List (Fin 8)) (st : DomState),
      candLoop hint f u l st = (candList hint f u l, st) := by
  intro l
  induction l with
  | nil => intro st; rfl
  | cons i rest ih =>
    intro st
    cases hc : f.countRes i with
    | none => simp only [candLoop, candList, countRead, hc]; exact ih st
    | some n =>
      simp only [candLoop, candList, countRead, isVisibleRead, hc]
      by_cases hg : 0 < n ∧ n ≤ 3
      · simp only [if_pos hg, ih st]
      · simp only [if_neg hg]; exact ih st

theorem frameLoop_eq (hint : String) :
    ∀ (fs : List FrameDom) (st : DomState),
      frameLoop hint fs st = (frameList hint fs, st) := by
  intro fs
  induction fs with
  | nil => intro st; rfl
  | cons f rest ih =>
    intro st
    simp only [frameLoop, frameList, urlRead, candLoop_eq, ih st]

theorem suggestLocatorsS_eq (hint : String) (st : DomState) :
    suggestLocatorsS hint st = (sortDesc (dedupLoop (frameList hint st.frames) []), st) := by
  simp only [suggestLocatorsS, framesRead, frameLoop_eq]

theorem mem_insertDesc (a x : Suggestion) :
    ∀ l, a ∈ insertDesc x l ↔ a = x ∨ a ∈ l := by
  intro l
  induction l with
  | nil => simp [insertDesc]
  | cons y ys ih =>
    simp only [insertDesc]
    split
    · simp [List.mem_cons]
    · simp only [List.mem_cons, ih]
      tauto

theorem mem_sortDesc (a : Suggestion) : ∀ l, a ∈ sortDesc l ↔ a ∈ l := by
  intro l
  induction l with
  | nil => simp [sortDesc]
  | cons x xs ih => simp [sortDesc, mem_insertDesc, ih]

theorem mem_dedupLoop (a : Suggestion) :
    ∀ (l : List Suggestion) (seen : List String), a ∈ dedupLoop l seen → a ∈ l := by
  intro l
  induction l with
  | nil => intro seen h; simpa [dedupLoop] using h
  | cons s rest ih =>
    intro seen h
    simp only [dedupLoop] at h
    split at h
    · exact List.mem_cons_of_mem _ (ih _ h)
    · rcases List.mem_cons.mp h with rfl | hm
      · exact List.mem_cons_self _ _
      · exact List.mem_cons_of_mem _ (ih _ hm)

theorem mem_candList (hint : String) (f : FrameDom) (u : String) :
    ∀ (l : List (Fin 8)) (s : Suggestion),
      s ∈ candList hint f u l →
      ∃ i ∈ l, ∃ n, f.countRes i = some n ∧ 0 < n ∧ n ≤ 3 ∧
        s = mkItem hint (candAt hint i) u n (f.visRes i) := by
  intro l
  induction l with
  | nil => intro s h; simp [candList] at h
  | cons i rest ih =>
    intro s h
    cases hc : f.countRes i with
    | none =>
      simp only [candList, hc] at h
      obtain ⟨i', hi', rest'⟩ := ih s h
      exact ⟨i', List.mem_cons_of_mem _ hi', rest'⟩
    | some n =>
      simp only [candList, hc] at h
      by_cases hg : 0 < n ∧ n ≤ 3
      · rw [if_pos hg] at h
        rcases List.mem_cons.mp h with rfl | hm
        · exact ⟨i, List.mem_cons_self _ _, n, hc, hg.1, hg.2, rfl⟩
        · obtain ⟨i', hi', rest'⟩ := ih s hm
          exact ⟨i', List.mem_cons_of_mem _ hi', rest'⟩
      · rw [if_neg hg] at h
        obtain ⟨i', hi', rest'⟩ := ih s h
        exact ⟨i', List.mem_cons_of_mem _ hi', rest'⟩

theorem mem_frameList (hint : String) :
    ∀ (fs : List FrameDom) (s : Suggestion),
      s ∈ frameList hint fs → ∃ f ∈ fs, s ∈ candList hint f f.url (List.finRange 8) := by
  intro fs
  induction fs with
  | nil => intro s h; simp [frameList] at h
  | cons f rest ih =>
    intro s h
    rcases List.mem_append.mp (by simpa [frameList] using h) with hm | hm
    · exact ⟨f, List.mem_cons_self _ _, hm⟩
    · obtain ⟨f', hf', hmem⟩ := ih s hm
      exact ⟨f', List.mem_cons_of_mem _ hf', hmem⟩

/-- Tracing one output suggestion back to the guarded query that produced
it: shared decomposition used by the count-bound and confidence claims. -/
theorem mem_suggest_decomp (hint : String) (st : DomState) (s : Suggestion)
    (hs : s ∈ (suggestLocatorsS hint st).1) :
    ∃ f ∈ st.frames, ∃ i : Fin 8, ∃ n,
      f.countRes i = some n ∧ 0 < n ∧ n ≤ 3 ∧
      s = mkItem hint (candAt hint i) f.url n (f.visRes i) := by
  rw [suggestLocatorsS_eq] at hs
  have h1 : s ∈ dedupLoop (frameList hint st.frames) [] := (mem_sortDesc s _).mp hs
  have h2 : s ∈ frameList hint st.frames := mem_dedupLoop s _ _ h1
  obtain ⟨f, hf, hmem⟩ := mem_frameList hint st.frames s h2
  obtain ⟨i, _, n, hcount, hn1, hn3, hitem⟩ := mem_candList hint f f.url _ s hmem
  exact ⟨f, hf, i, n, hcount, hn1, hn3, hitem⟩

/-- When at most one of the two reason-provenance bonuses applies, the
clamped confidence cannot exceed 35 + 20 + 15 + 10 = 80. -/
theorem scoreFor_le_80_of_not_both (api : ApiKind) (u v : Bool) (reasons : List String)
    (h : reasons.any mentionsAriaOrRole = false ∨ reasons.any mentionsTestId = false) :
    scoreFor api u v reasons ≤ 80 := by
  rcases h with h | h <;>
    simp only [scoreFor, h, Bool.false_eq_true, if_false] <;>
    cases api <;> cases u <;> cases v <;> split_ifs <;> decide

theorem candAt_mem (hint : String) (i : Fin 8) : candAt hint i ∈ candidatesFor hint :=
  List.get_mem _ _ _

/-- Each candidate carries exactly one reason string, and no reason string
matches both `/aria|role/i` and `/data-testid/i`. -/
theorem cand_reasons_not_both (hint : String) (c : Candidate) (hc : c ∈ candidatesFor hint) :
    c.reasons.any mentionsAriaOrRole = false ∨ c.reasons.any mentionsTestId = false := by
  simp only [candidatesFor, List.mem_cons, List.not_mem_nil, or_false] at hc
  rcases hc with rfl | rfl | rfl | rfl | rfl | rfl | rfl | rfl
  all_goals dsimp only
  all_goals decide

end Suggest

namespace AutoVisible

theorem runLoop_ge (o : ℕ → ℕ) (timeoutMs : ℕ) :
    ∀ d i t, timeoutMs - t ≤ d → timeoutMs ≤ runLoop o timeoutMs i t := by
  intro d
  induction d with
  | zero =>
    intro i t h
    rw [runLoop]
    rw [if_neg (by omega : ¬ t < timeoutMs)]
    omega
  | succ d ih =>
    intro i t h
    rw [runLoop]
    split
    · exact ih _ _ (by omega)
    · omega

theorem runLoop_lt (o : ℕ → ℕ) (timeoutMs B : ℕ) (hB : ∀ j, o j ≤ B) :
    ∀ d i t, timeoutMs - t ≤ d → t < timeoutMs + B + 500 →
      runLoop o timeoutMs i t < timeoutMs + B + 500 := by
  intro d
  induction d with
  | zero =>
    intro i t h ht
    rw [runLoop]
    rw [if_neg (by omega : ¬ t < timeoutMs)]
    exact ht
  | succ d ih =>
    intro i t h ht
    rw [runLoop]
    split
    · next hc => exact ih _ _ (by omega) (by have := hB i; omega)
    · exact ht

end AutoVisible

namespace Ready

theorem swallowErr_ok (r : Except Unit Unit) : swallowErr r = Except.ok () := by
  cases r <;> rfl

theorem spinCalls_le (ev : ℕ → Except Unit Bool) (dur : ℕ → ℕ) :
    ∀ d i t, 15000 - t ≤ d → 300 * i ≤ t → i ≤ 50 → spinCalls ev dur i t ≤ 50 := by
  intro d
  induction d with
  | zero =>
    intro i t h h2 h3
    rw [spinCalls]
    rw [if_neg (by omega : ¬ t < 15000)]
    exact h3
  | succ d ih =>
    intro i t h h2 h3
    rw [spinCalls]
    split
    · next hc =>
      cases hev : ev i with
      | ok b =>
        cases b with
        | false => simp only [hev]; omega
        | true => simp only [hev]; exact ih _ _ (by omega) (by omega) (by omega)
      | error e => simp only [hev]; omega
    · exact h3

end Ready

namespace Ready

theorem loadStateWait_fst_le (oa : Option ℕ) : (loadStateWait oa).1 ≤ 15000 := by
  cases oa with
  | none => simp [loadStateWait]
  | some d =>
    simp only [loadStateWait]
    split_ifs with hd
    · simpa using hd
    · simp

theorem ensureDomReady_ok (env : ReadyEnv) : ensureDomReady env = Except.ok () := by
  unfold ensureDomReady
  rw [swallowErr_ok, swallowErr_ok]
  rfl

end Ready

/-- C1 counterexample: with the hint "password" (which matches
`/password/i`), `autoFill`'s scoring resolver selects the `type=text`
element at index 0 even though the `type=password` element at index 1
scores 25 ≥ the threshold 25 in the same document: the invisible password
field scores 150 + 60 − 200 + 15 = 25 while the visible text field with
`autocomplete="current-password"` scores −80 + 60 + 40 + 15 = 35. -/
theorem autoFill_password_picks_text_counterexample :
    containsCI "password" "password" = true ∧
    Fields.autoFillSelect "password" [cexTextEl, cexPasswordEl] = some 0 ∧
    strLower cexTextEl.type = "text" ∧
    strLower cexPasswordEl.type = "password" ∧
    25 ≤ Fields.scoreFor .password "password" cexPasswordEl := by
  refine ⟨rfl, rfl, rfl, rfl, by decide⟩

/-- C1 (amended): for every hint matching `/password/i`, `autoFill` never
selects (and fills) an element of `type=text` when some VISIBLE
`type=password` element exists in the same document (such an element
always scores at least 150, above the threshold, while any `type=text`
element scores at most 35). -/
theorem autoFill_password_avoids_text_of_visible_password
    (hintStr : String) (els : List Fields.InputEl)
    (hHint : containsCI hintStr "password" = true)
    (p : Fields.InputEl) (hp : p ∈ els)
    (hty : strLower p.type = "password") (hvis : p.visible = true)
    (j : ℕ) (hj : Fields.autoFillSelect hintStr els = some j) :
    ∃ hlt : j < els.length, strLower (els.get ⟨j, hlt⟩).type ≠ "text" := by
  have hsem : Fields.autoFillSemantic hintStr = .password := by
    simp [Fields.autoFillSemantic, hHint]
  rw [Fields.autoFillSelect, hsem] at hj
  unfold Fields.findFieldLocator at hj
  cases heq : Fields.bestLoop (Fields.scoreFor .password hintStr) els 0 none with
  | none => rw [heq] at hj; exact absurd hj (by simp)
  | some q =>
    obtain ⟨i, s⟩ := q
    rw [heq] at hj
    dsimp only at hj
    by_cases h25 : (25 : ℤ) ≤ s
    case neg => rw [if_neg h25] at hj; exact absurd hj (by simp)
    rw [if_pos h25] at hj
    have hij : i = j := by simpa using hj
    subst hij
    rcases Fields.bestLoop_attains _ els 0 none i s heq with habs | ⟨k, hk, hjk, hs⟩
    · exact absurd habs (by simp)
    · have hki : k = i := by omega
      subst hki
      refine ⟨hk, ?_⟩
      intro hcontra
      have hub := Fields.bestLoop_ub _ els 0 none k s heq p hp
      have hge := Fields.scoreFor_password_of_visible_password hintStr p hHint hty hvis
      have hle := Fields.scoreFor_password_of_text hintStr (els.get ⟨k, hk⟩) hcontra
      rw [← hs] at hle
      omega

/-- C1 witness: in a document with a plain text input and a visible
password input, the semantic resolver for hint "password" selects index 1,
and the amended theorem certifies that element is not `type=text`. -/
theorem autoFill_password_avoids_text_witness :
    ∃ hlt : 1 < ([witPlainEl, witVisPasswordEl] : List Fields.InputEl).length,
      strLower (([witPlainEl, witVisPasswordEl] : List Fields.InputEl).get ⟨1, hlt⟩).type ≠ "text" :=
  autoFill_password_avoids_text_of_visible_password "password" [witPlainEl, witVisPasswordEl]
    (by decide) witVisPasswordEl (by decide) (by decide) (by decide) 1 (by decide)

/-- C2: for every document, semantic role and hint, `findFieldLocator`
returns none whenever every input's score is below the threshold 25; it
never falls back to an arbitrary first field. -/
theorem findFieldLocator_none_below_threshold
    (semantic : Fields.Semantic) (hintText : String) (els : List Fields.InputEl)
    (h : ∀ el ∈ els, Fields.scoreFor semantic hintText el < 25) :
    Fields.findFieldLocator semantic hintText els = none := by
  unfold Fields.findFieldLocator
  cases heq : Fields.bestLoop (Fields.scoreFor semantic hintText) els 0 none with
  | none => rfl
  | some q =>
    obtain ⟨i, s⟩ := q
    rcases Fields.bestLoop_attains _ els 0 none i s heq with habs | ⟨k, hk, _, hs⟩
    · exact absurd habs (by simp)
    · have hlt : s < 25 := hs ▸ h _ (List.get_mem els k hk)
      dsimp only
      rw [if_neg (by omega : ¬ (25 : ℤ) ≤ s)]

/-- C2 witness: a document containing only an unlabeled, unidentifiable
text input (password-role score −80 < 25) yields no element. -/
theorem findFieldLocator_none_below_threshold_witness :
    (∀ el ∈ [c2PlainEl], Fields.scoreFor .password "x" el < 25) ∧
    Fields.findFieldLocator .password "x" [c2PlainEl] = none :=
  ⟨by decide, findFieldLocator_none_below_threshold .password "x" [c2PlainEl] (by decide)⟩

/-- C3: on a `type=password` element carrying no other scoring signals
(no token matches in name/id/class/placeholder/aria/label/hint, no
autocomplete hints), the password-role score exceeds the username-role
score by at least 60 (in fact by exactly 300: +150 versus −150). -/
theorem scoreFor_password_exceeds_username_by_60 (hintText : String) (el : Fields.InputEl)
    (hty : strLower el.type = "password")
    (hp1 : Fields.includesAny (strLower el.name ++ strLower el.id ++ strLower el.cls ++ strLower el.placeholder ++ strLower el.aria ++ strLower el.label ++ strLower hintText) Fields.passwordTokens = false)
    (hu1 : Fields.includesAny (strLower el.name ++ strLower el.id ++ strLower el.cls ++ strLower el.placeholder ++ strLower el.aria ++ strLower el.label ++ strLower hintText) Fields.usernameTokens = false)
    (hu2 : Fields.includesAny (strLower el.name ++ strLower el.id) Fields.usernameTokens = false)
    (hp2 : Fields.includesAny (strLower el.name ++ strLower el.id ++ strLower el.placeholder ++ strLower el.aria ++ strLower el.label) Fields.passwordTokens = false)
    (ha1 : containsStr (strLower el.autocomplete) "current-password" = false)
    (ha2 : containsStr (strLower el.autocomplete) "new-password" = false)
    (ha3 : containsStr (strLower el.autocomplete) "username" = false)
    (ha4 : containsStr (strLower el.autocomplete) "email" = false) :
    60 ≤ Fields.scoreFor .password hintText el - Fields.scoreFor .username hintText el := by
  have hne : ("password" : String) = "email" ↔ False :=
    iff_false_intro (by decide)
  simp only [Fields.scoreFor, hty, hp1, hu1, hu2, hp2, ha1, ha2, ha3, ha4,
    Bool.or_self, Bool.false_eq_true, if_false, eq_self_iff_true, if_true, hne]
  split_ifs <;> omega

/-- C3 witness: a bare visible password input under the empty hint scores
150 under the password role and −150 under the username role. -/
theorem scoreFor_password_exceeds_username_by_60_witness :
    60 ≤ Fields.scoreFor .password "" c3PasswordEl - Fields.scoreFor .username "" c3PasswordEl :=
  scoreFor_password_exceeds_username_by_60 "" c3PasswordEl (by decide) (by decide) (by decide)
    (by decide) (by decide) (by decide) (by decide) (by decide) (by decide)

/-- C4: every suggestion returned by `suggestLocators` comes from an
underlying query on some enumerated frame whose match count was between
1 and 3 inclusive; queries matching 0 elements (or raising) or more than
3 elements never contribute a suggestion. -/
theorem suggestLocators_match_count_in_one_to_three (hint : String) (st : Suggest.DomState)
    (s : Suggest.Suggestion) (hs : s ∈ (Suggest.suggestLocatorsS hint st).1) :
    ∃ f ∈ st.frames, ∃ i : Fin 8, ∃ n, f.countRes i = some n ∧ 1 ≤ n ∧ n ≤ 3 ∧
      s = Suggest.mkItem hint (Suggest.candAt hint i) f.url n (f.visRes i) := by
  obtain ⟨f, hf, i, n, hc, h1, h3, hi⟩ := Suggest.mem_suggest_decomp hint st s hs
  exact ⟨f, hf, i, n, hc, h1, h3, hi⟩

/-- C4 witness: the unique-match role-button suggestion is in the output
of the witness document, and the theorem traces it to its count-1 query. -/
theorem suggestLocators_match_count_in_one_to_three_witness :
    (Suggest.mkItem "Login" (Suggest.candAt "Login" 0) "https://app.example/login" 1 true)
      ∈ (Suggest.suggestLocatorsS "Login" c4Dom).1 ∧
    (∃ f ∈ c4Dom.frames, ∃ i : Fin 8, ∃ n, f.countRes i = some n ∧ 1 ≤ n ∧ n ≤ 3 ∧
      Suggest.mkItem "Login" (Suggest.candAt "Login" 0) "https://app.example/login" 1 true
        = Suggest.mkItem "Login" (Suggest.candAt "Login" i) f.url n (f.visRes i)) :=
  ⟨by decide, suggestLocators_match_count_in_one_to_three "Login" c4Dom _ (by decide)⟩

/-- C5 counterexample: with `timeoutMs = 20000` and a per-iteration
overhead of 30s (a readiness wait that keeps timing out), the loop checks
the clock once at t = 0 and throws at t = 30500, overshooting the timeout
by far more than one 500ms poll interval. -/
theorem autoExpectVisible_overshoot_counterexample :
    AutoVisible.throwTime (fun _ => 30000) 20000 = 30500 ∧ 20000 + 500 < 30500 := by
  constructor
  · show AutoVisible.runLoop (fun _ => 30000) 20000 0 0 = 30500
    rw [AutoVisible.runLoop]
    norm_num
    rw [AutoVisible.runLoop]
    norm_num
  · norm_num

/-- C5 (amended): for a hint that never resolves to a visible element,
`autoExpectVisible` raises no earlier than `timeoutMs`, terminates, and
overshoots by less than one poll interval (500ms) plus the duration bound
B of one iteration's non-sleep work (readiness wait, resolution, and the
2s visibility check); the claimed one-poll-interval window holds exactly
when that per-iteration overhead is zero. -/
theorem autoExpectVisible_timeout_window (o : ℕ → ℕ) (timeoutMs B : ℕ)
    (hB : ∀ j, o j ≤ B) :
    timeoutMs ≤ AutoVisible.throwTime o timeoutMs ∧
    AutoVisible.throwTime o timeoutMs < timeoutMs + B + 500 :=
  ⟨AutoVisible.runLoop_ge o timeoutMs timeoutMs 0 0 (by omega),
   AutoVisible.runLoop_lt o timeoutMs B hB timeoutMs 0 0 (by omega) (by omega)⟩

/-- C5 witness: with zero per-iteration overhead and a 1000ms timeout the
error is raised at t = 1000, inside the one-poll-interval window. -/
theorem autoExpectVisible_timeout_window_witness :
    1000 ≤ AutoVisible.throwTime (fun _ => 0) 1000 ∧
    AutoVisible.throwTime (fun _ => 0) 1000 < 1000 + 0 + 500 :=
  autoExpectVisible_timeout_window (fun _ => 0) 1000 0 (fun _ => Nat.le_refl 0)

/-- C6 counterexample: the page fixture of context-playwright.ts (the one
the exported `test` uses) rethrows the error on failure and captures
neither a DOM snapshot nor a screenshot, contradicting the claim that
every failing run saves both files and suspends forever. -/
theorem enhanced_fixture_propagates_counterexample :
    (Harness.enhancedPageFixture true).terminal = Harness.Terminal.propagatesError ∧
    Harness.Effect.saveDomSnapshotTimestamped ∉ (Harness.enhancedPageFixture true).effects ∧
    Harness.Effect.saveScreenshotTimestamped ∉ (Harness.enhancedPageFixture true).effects := by
  decide

/-- C6 (amended): the backup harness (src/backup_context.ts) behaves as
claimed: a failing run saves a timestamped DOM snapshot and a timestamped
full-page screenshot and then suspends forever instead of propagating, and
page, context and browser are closed exactly when the test passed; the
harness in src/tests/context-playwright.ts instead logs diagnostics and
rethrows, saving no files. -/
theorem backup_fixture_failure_behavior :
    ∀ st : Harness.TStatus,
      (Harness.backupPageFixture true st).terminal = Harness.Terminal.suspendsForever ∧
      Harness.Effect.saveDomSnapshotTimestamped ∈ (Harness.backupPageFixture true st).effects ∧
      Harness.Effect.saveScreenshotTimestamped ∈ (Harness.backupPageFixture true st).effects ∧
      (Harness.Effect.closePage ∈ (Harness.backupPageFixture false st).effects ↔ st = .passed) ∧
      (Harness.Effect.closeContext ∈ (Harness.backupPageFixture false st).effects ↔ st = .passed) ∧
      (Harness.Effect.closeBrowser ∈ (Harness.backupPageFixture false st).effects ↔ st = .passed) ∧
      Harness.Effect.closePage ∉ (Harness.backupPageFixture true st).effects ∧
      Harness.Effect.closeContext ∉ (Harness.backupPageFixture true st).effects ∧
      Harness.Effect.closeBrowser ∉ (Harness.backupPageFixture true st).effects := by
  intro st
  cases st <;> decide

/-- C7: calling `suggestLocators` twice on an unchanged document yields
identical ranked output (same suggestions, same order, same confidence
values), and the call never mutates the page state. -/
theorem suggestLocators_idempotent_and_pure (hint : String) (st : Suggest.DomState) :
    (Suggest.suggestLocatorsS hint st).2 = st ∧
    (Suggest.suggestLocatorsS hint ((Suggest.suggestLocatorsS hint st).2)).1 =
      (Suggest.suggestLocatorsS hint st).1 := by
  simp [Suggest.suggestLocatorsS_eq]

/-- C8 counterexample: the `autoClick` of context-playwright.ts, given a
strategy that finds an element whose timed click fails (and no other
matching strategy), propagates an error without ever dispatching a raw
click event — there is no dispatch fallback in that implementation. -/
theorem autoClickMain_no_dispatch_counterexample :
    (Click.autoClickMain "Login" [(true, false)]).1
      = Click.ClickOutcome.failure (Click.mainMissMsg "Login") ∧
    Click.ClickAction.timedClick ∈ (Click.autoClickMain "Login" [(true, false)]).2 ∧
    Click.ClickAction.dispatchClickEvent ∉ (Click.autoClickMain "Login" [(true, false)]).2 := by
  decide

/-- C8 (amended): the `autoClick` of src/backup_context.ts behaves as
claimed: on a resolver hit it attempts the timed click first and any
propagated failure happens only after the raw click-event dispatch was
attempted; on a resolver miss it fails with a descriptive error whose
message names the hint. -/
theorem backup_autoClick_click_then_dispatch (hint : String) (env : Click.BackupClickEnv) :
    (env.resolves = true →
      (Click.autoClick hint env).2.head? = some Click.ClickAction.timedClick ∧
      (∀ msg, (Click.autoClick hint env).1 = Click.ClickOutcome.failure msg →
        Click.ClickAction.dispatchClickEvent ∈ (Click.autoClick hint env).2)) ∧
    (env.resolves = false →
      (Click.autoClick hint env).1 = Click.ClickOutcome.failure (Click.backupMissMsg hint) ∧
      ∃ pre post, Click.backupMissMsg hint = pre ++ hint ++ post) := by
  constructor
  · intro hr
    cases hc : env.clickOk with
    | true =>
      refine ⟨by simp [Click.autoClick, hr, hc], ?_⟩
      intro msg hmsg
      simp [Click.autoClick, hr, hc] at hmsg
    | false =>
      cases hd : env.dispatchOk with
      | true =>
        refine ⟨by simp [Click.autoClick, hr, hc, hd], ?_⟩
        intro msg hmsg
        simp [Click.autoClick, hr, hc, hd] at hmsg
      | false =>
        refine ⟨by simp [Click.autoClick, hr, hc, hd], ?_⟩
        intro msg hmsg
        simp [Click.autoClick, hr, hc, hd]
  · intro hr
    refine ⟨by simp [Click.autoClick, hr], ?_⟩
    exact ⟨"Auto-fix could not locate clickable element for ",
      ". Please share selector details or add a data-testid.", rfl⟩

/-- C8 witness: on a hit whose timed click fails and whose dispatch also
fails, the first attempted action is the timed click and the dispatch was
attempted before the error propagated. -/
theorem backup_autoClick_click_then_dispatch_witness :
    (Click.autoClick "Login" ⟨true, false, false, "click intercepted"⟩).2.head?
      = some Click.ClickAction.timedClick ∧
    Click.ClickAction.dispatchClickEvent
      ∈ (Click.autoClick "Login" ⟨true, false, false, "click intercepted"⟩).2 := by
  have h := backup_autoClick_click_then_dispatch "Login" ⟨true, false, false, "click intercepted"⟩
  exact ⟨(h.1 rfl).1, (h.1 rfl).2 "click intercepted" (by decide)⟩

/-- C9: `ensureDomReady` returns normally for every environment — load
state timeouts and spinner-probe exceptions included (fail-open) — each
load-state wait lasts at most 15000ms, and the spinner poll issues at most
50 probes (15s budget at a 300ms interval). -/
theorem ensureDomReady_never_throws_bounded (env : Ready.ReadyEnv) :
    Ready.ensureDomReady env = Except.ok () ∧
    (Ready.loadStateWait env.domLoadAt).1 ≤ 15000 ∧
    (Ready.loadStateWait env.idleLoadAt).1 ≤ 15000 ∧
    Ready.spinCalls env.spinEval env.spinDur 0 0 ≤ 50 :=
  ⟨Ready.ensureDomReady_ok env, Ready.loadStateWait_fst_le _, Ready.loadStateWait_fst_le _,
    Ready.spinCalls_le _ _ 15000 0 0 (by omega) (by omega) (by omega)⟩

/-- C10: every suggestion returned by `suggestLocators` has confidence at
most 80, strictly below the clamp at 100: the best attainable sum is 35
(getByRole) + 20 (unique) + 15 (visible) + 10 (one provenance reason), and
no candidate's single reason string triggers both the aria/role bonus and
the test-id bonus. -/
theorem suggestLocators_confidence_le_80 (hint : String) (st : Suggest.DomState)
    (s : Suggest.Suggestion) (hs : s ∈ (Suggest.suggestLocatorsS hint st).1) :
    s.confidence ≤ 80 := by
  obtain ⟨f, hf, i, n, hc, h1, h3, hi⟩ := Suggest.mem_suggest_decomp hint st s hs
  rw [hi]
  exact Suggest.scoreFor_le_80_of_not_both _ _ _ _
    (Suggest.cand_reasons_not_both hint _ (Suggest.candAt_mem hint i))

/-- C10 witness: the non-unique, hidden data-testid suggestion of the
witness document is in the output and its confidence (0) is at most 80. -/
theorem suggestLocators_confidence_le_80_witness :
    (Suggest.mkItem "Submit" (Suggest.candAt "Submit" 4) "https://app.example/portal" 2 false)
      ∈ (Suggest.suggestLocatorsS "Submit" c10Dom).1 ∧
    (Suggest.mkItem "Submit" (Suggest.candAt "Submit" 4) "https://app.example/portal" 2 false).confidence ≤ 80 :=
  ⟨by decide, suggestLocators_confidence_le_80 "Submit" c10Dom _ (by decide)⟩
